import Mathlib

/-!
Verification of the m-lab scraper sync loop (scraper.py / run_scraper.py).

This file gives a shallow embedding of the parts of scraper.py that the
specification talks about, and proves (or refutes) the spec's claims about
them.  Conventions of the embedding:

- Python `datetime` values are represented by their epoch seconds as `Int`
  (the code only ever compares datetimes and truncates them to day
  granularity; truncating a datetime to its calendar day corresponds to
  flooring its epoch value to a multiple of 86400, via `Int.fdiv`).

- File mtimes are whole-second epoch values (`Int`), file sizes are byte
  counts (`Nat`).

- Subprocess results (rsync exit codes, object-store HTTP statuses) are
  inputs to the embedded functions; the filesystem walked by `os.walk` is
  an input list of file records.

- Exceptions become an explicit result type: `ScraperError` carries the
  prometheus label and whether the exception class was
  RecoverableScraperException or NonRecoverableScraperException.
-/

/-- Whether an exception is a RecoverableScraperException or a
NonRecoverableScraperException (scraper.py lines 58-63). -/
inductive ErrorKind where
  | recoverable
  | nonRecoverable
deriving DecidableEq, Repr

/-- A ScraperException: its prometheus label and its recoverability class
(scraper.py lines 50-63). -/
structure ScraperError where
  prometheus_label : String
  kind : ErrorKind
deriving DecidableEq, Repr

/-- A `RemoteFile` as produced by the lister: relative path and
whole-second mtime, the mtime as epoch seconds (scraper.py line 144). -/
structure RemoteFile where
  filename : String
  mtime : Int
deriving DecidableEq, Repr

/-- A `LocalBufferedFile`: path, mtime (epoch seconds) and size in bytes
(scraper.py line 480). -/
structure LocalBufferedFile where
  filename : String
  mtime : Int
  size : Nat
deriving DecidableEq, Repr

/-! ## Remote lister: exit-code policy (scraper.py lines 253-266, claim C7) -/

/-- Models the tail of `list_rsync_files`: after parsing stdout into
`files`, the rsync process exit code decides whether the files are
returned or a RecoverableScraperException with label rsync_listing is
raised (scraper.py lines 261-266). -/
def list_rsync_files_outcome (files : List RemoteFile) (returncode : Int) :
    Except ScraperError (List RemoteFile) :=
  if returncode ∉ ([0, 23, 24] : List Int) then
    .error ⟨"rsync_listing", .recoverable⟩
  else
    .ok files

/-! ## High-water / quiescence filters (scraper.py lines 269-287 and
844-863, claims C8 and C10) -/

/-- The `remove_older_files` generator (scraper.py lines 269-287): skip
any file whose path has fewer than three slash characters, then yield
exactly the files whose mtime is strictly above the high-water mark. -/
def remove_older_files (high_water_mark : Int) (files : List RemoteFile) :
    List RemoteFile :=
  files.filter (fun remote_file =>
    if remote_file.filename.data.count '/' < 3 then false
    else decide (remote_file.mtime > high_water_mark))

/-- The `remove_too_recent_files` generator (scraper.py lines 844-863):
with `border` = utcnow minus the quiescence period, yield exactly the
files whose mtime is strictly below the border.  `now_utc` is the value
of `datetime.datetime.utcnow()` and `quiescence_period` the timedelta
argument (default 15 minutes = 900 seconds). -/
def remove_too_recent_files (now_utc : Int) (quiescence_period : Int)
    (filelist : List RemoteFile) : List RemoteFile :=
  let border := now_utc - quiescence_period
  filelist.filter (fun remote_file => decide (remote_file.mtime < border))

/-- The filter stage of `download` (scraper.py lines 866-878): the remote
file list is passed through `remove_older_files` and then
`remove_too_recent_files` before being handed to `download_files`. -/
def download_filter (high_water_mark now_utc quiescence_period : Int)
    (all_remote_files : List RemoteFile) : List RemoteFile :=
  remove_too_recent_files now_utc quiescence_period
    (remove_older_files high_water_mark all_remote_files)

/-! ## Downloader (scraper.py lines 289-341, claim C9) -/

/-- `FILES_PER_RSYNC_DOWNLOAD` (scraper.py line 291). -/
def FILES_PER_RSYNC_DOWNLOAD : Nat := 1000

/-- The chunking performed by `range(0, len(files), FILES_PER_RSYNC_DOWNLOAD)`
together with `files[start:start + FILES_PER_RSYNC_DOWNLOAD]`
(scraper.py lines 316-318): the slice starting at `k * 1000` for each of
the `ceil(len / 1000)` values produced by the range. -/
def chunks1000 (files : List String) : List (List String) :=
  (List.range ((files.length + (FILES_PER_RSYNC_DOWNLOAD - 1)) /
      FILES_PER_RSYNC_DOWNLOAD)).map
    (fun k => (files.drop (k * FILES_PER_RSYNC_DOWNLOAD)).take
      FILES_PER_RSYNC_DOWNLOAD)

/-- One rsync invocation per chunk (scraper.py lines 332-340): the exit
code of invocation number `i` is `codes i`; exit codes 0 and 24 are
success, anything else raises a RecoverableScraperException labelled
rsync_download.  Returns the list of successfully transferred chunks. -/
def download_chunks (codes : Nat → Int) : Nat → List (List String) →
    Except ScraperError (List (List String))
  | _, [] => .ok []
  | i, chunk :: rest =>
    if codes i ∉ ([0, 24] : List Int) then
      .error ⟨"rsync_download", .recoverable⟩
    else
      match download_chunks codes (i + 1) rest with
      | .ok done => .ok (chunk :: done)
      | .error e => .error e

/-- `download_files` (scraper.py lines 294-341): drop the mtimes, return
immediately when there are no files, otherwise rsync the filenames in
chunks of 1000. -/
def download_files (files : List RemoteFile) (codes : Nat → Int) :
    Except ScraperError (List (List String)) :=
  let names := files.map (·.filename)
  if names = [] then .ok []
  else download_chunks codes 0 (chunks1000 names)

/-! ## Calendar arithmetic

The code converts between epoch seconds and calendar datetimes via
`datetime.datetime.utcfromtimestamp` and `datetime.datetime.strptime`.
We embed proleptic-Gregorian calendar arithmetic (the algorithms are the
standard civil-from-days / days-from-civil ones; they agree with Python's
datetime for all representable dates). -/

/-- Number of days from 1970-01-01 to the given calendar date
(proleptic Gregorian). -/
def daysFromCivil (y m d : Int) : Int :=
  let y' := if m ≤ 2 then y - 1 else y
  let era := Int.fdiv y' 400
  let yoe := y' - era * 400
  let mp := Int.emod (m + 9) 12
  let doy := Int.fdiv (153 * mp + 2) 5 + d - 1
  let doe := yoe * 365 + Int.fdiv yoe 4 - Int.fdiv yoe 100 + doy
  era * 146097 + doe - 719468

/-- Calendar date (year, month, day) of the given number of days since
1970-01-01 (proleptic Gregorian); inverse of `daysFromCivil`. -/
def civilFromDays (z : Int) : Int × Int × Int :=
  let z' := z + 719468
  let era := Int.fdiv z' 146097
  let doe := z' - era * 146097
  let yoe := Int.fdiv (doe - Int.fdiv doe 1460 + Int.fdiv doe 36524 -
    Int.fdiv doe 146096) 365
  let y := yoe + era * 400
  let doy := doe - (365 * yoe + Int.fdiv yoe 4 - Int.fdiv yoe 100)
  let mp := Int.fdiv (5 * doy + 2) 153
  let d := doy - Int.fdiv (153 * mp + 2) 5 + 1
  let m := mp + (if mp < 10 then 3 else -9)
  (if m ≤ 2 then y + 1 else y, m, d)

/-- Models `datetime.datetime.utcfromtimestamp`: epoch seconds to
(year, month, day, hour, minute, second). -/
def utcfromtimestamp (t : Int) : Int × Int × Int × Int × Int × Int :=
  let days := Int.fdiv t 86400
  let secs := Int.emod t 86400
  let (y, m, d) := civilFromDays days
  (y, m, d, Int.fdiv secs 3600, Int.fdiv (Int.emod secs 3600) 60,
   Int.emod secs 60)

/-- Zero-pad a number to the given width, as the 0-padded d formats of
Python do for non-negative values. -/
def padNum (width : Nat) (n : Nat) : String :=
  let s := toString n
  String.mk (List.replicate (width - s.length) '0') ++ s

/-- A `TarfileTemplate` (scraper.py lines 504-511). -/
structure TarfileTemplate where
  tarfile_directory : String
  node : String
  site : String
  experiment : String
deriving DecidableEq, Repr

/-- `TarfileTemplate.create_filename` (scraper.py lines 513-522): convert
the mtime to a UTC datetime and format the archive filename from it. -/
def TarfileTemplate.create_filename (tpl : TarfileTemplate) (mtime : Int) :
    String :=
  match utcfromtimestamp mtime with
  | (year, month, day, hour, minute, second) =>
    tpl.tarfile_directory ++ "/" ++
    padNum 4 year.toNat ++ padNum 2 month.toNat ++ padNum 2 day.toNat ++
    "T" ++ padNum 2 hour.toNat ++ padNum 2 minute.toNat ++
    padNum 2 second.toNat ++ "Z" ++
    "-" ++ tpl.node ++ "-" ++ tpl.site ++ "-" ++ tpl.experiment ++
    "-0000.tgz"

/-! ## Local scanner (scraper.py lines 484-501) -/

/-- `all_files` (scraper.py lines 484-501): walking the local directory is
modelled by filtering the list `disk` of files present on disk; yields
exactly the files with `high_water_mark < mtime <= too_recent_timestamp`
(both bounds converted to epoch seconds by `datetime_to_epoch`, which in
the epoch representation is the identity). -/
def all_files (disk : List LocalBufferedFile)
    (high_water_mark too_recent_timestamp : Int) : List LocalBufferedFile :=
  disk.filter (fun f =>
    decide (high_water_mark < f.mtime ∧ f.mtime ≤ too_recent_timestamp))

/-! ## Tar packer (scraper.py lines 525-579, claims C2 and C4) -/

/-- One archive as yielded by `create_temporary_tarfiles`: the tarfile
name, its component files (the code keeps the component filenames; we
keep the whole records so membership can be stated - the yielded file
count is `files.length`), and the `min_mtime` / `max_mtime` values of the
yielded tuple. -/
structure TarBatch where
  name : String
  files : List LocalBufferedFile
  minMtime : Int
  maxMtime : Int
deriving DecidableEq, Repr

/-- The loop state of `create_temporary_tarfiles` (scraper.py lines
546-551), plus the accumulated yields in `out`.  `min_mtime = none`
models the initial value float(inf); `prev_timestamp = none` models the
initial value None.  The code also keeps a `tarfile_index` counter that
no yielded value depends on; it is not modelled. -/
structure PackSt where
  tarfile_files : List LocalBufferedFile
  tarfile_size : Nat
  min_mtime : Option Int
  max_mtime : Int
  prev_timestamp : Option Int
  out : List TarBatch
deriving DecidableEq, Repr

/-- The initial loop state (scraper.py lines 546-551). -/
def packInit : PackSt :=
  { tarfile_files := [], tarfile_size := 0, min_mtime := none,
    max_mtime := 0, prev_timestamp := none, out := [] }

/-- The sealed archive for the current batch: named via
`tarfile_template.create_filename(min_mtime)` (scraper.py lines 558 and
574); only reached when the batch is non-empty, so `min_mtime` is a real
mtime and the `getD` default is never used. -/
def sealBatch (tpl : TarfileTemplate) (st : PackSt) : TarBatch :=
  { name := tpl.create_filename (st.min_mtime.getD 0),
    files := st.tarfile_files,
    minMtime := st.min_mtime.getD 0,
    maxMtime := st.max_mtime }

/-- The body of the `for local_file in sorted(...)` loop (scraper.py
lines 553-572): seal and yield the open batch when it is non-empty, the
running size plus the next file's size exceeds `max_uncompressed_size`,
and the next file's mtime differs from `prev_timestamp`; then append the
file and update the running size, `prev_timestamp`, `min_mtime` and
`max_mtime`.  In Python, `local_file.mtime != prev_timestamp` is true
when `prev_timestamp` is None. -/
def packStep (max_uncompressed_size : Nat) (tpl : TarfileTemplate)
    (st : PackSt) (local_file : LocalBufferedFile) : PackSt :=
  let st' :=
    if st.tarfile_files ≠ [] ∧
        st.tarfile_size + local_file.size > max_uncompressed_size ∧
        st.prev_timestamp ≠ some local_file.mtime then
      { st with out := st.out ++ [sealBatch tpl st],
                tarfile_files := [], tarfile_size := 0,
                min_mtime := some local_file.mtime }
    else st
  { st' with
    tarfile_files := st'.tarfile_files ++ [local_file],
    tarfile_size := st'.tarfile_size + local_file.size,
    prev_timestamp := some local_file.mtime,
    min_mtime := some (match st'.min_mtime with
      | none => local_file.mtime
      | some m => min local_file.mtime m),
    max_mtime := max local_file.mtime st'.max_mtime }

/-- The whole loop plus the final flush (scraper.py lines 553-579): after
the stream ends, a non-empty residual batch is sealed and yielded. -/
def packGo (max_uncompressed_size : Nat) (tpl : TarfileTemplate)
    (st : PackSt) : List LocalBufferedFile → List TarBatch
  | [] =>
    if st.tarfile_files = [] then st.out
    else st.out ++ [sealBatch tpl st]
  | local_file :: rest =>
    packGo max_uncompressed_size tpl
      (packStep max_uncompressed_size tpl st local_file) rest

/-- Packing an already-sorted file stream from the initial state. -/
def packFiles (max_uncompressed_size : Nat) (tpl : TarfileTemplate)
    (sorted_files : List LocalBufferedFile) : List TarBatch :=
  packGo max_uncompressed_size tpl packInit sorted_files

/-- The `sorted(all_files(...), cmp=lambda x, y: cmp(x.mtime, y.mtime))`
call (scraper.py lines 553-554).  Python's sorted is a stable sort by
mtime; all stable sorts of a list by the same key agree, so it is
embedded as a stable insertion sort. -/
def sortByMtime (l : List LocalBufferedFile) : List LocalBufferedFile :=
  List.insertionSort (fun a b => a.mtime ≤ b.mtime) l

instance : IsTotal LocalBufferedFile (fun a b => a.mtime ≤ b.mtime) :=
  ⟨fun a b => Int.le_total a.mtime b.mtime⟩

instance : IsTrans LocalBufferedFile (fun a b => a.mtime ≤ b.mtime) :=
  ⟨fun _ _ _ hab hbc => le_trans hab hbc⟩

/-- `create_temporary_tarfiles` (scraper.py lines 525-579) as the list of
archives it yields, given the files on disk and the two time bounds (as
epoch seconds). -/
def create_temporary_tarfiles (tpl : TarfileTemplate)
    (disk : List LocalBufferedFile) (early_time late_time : Int)
    (max_uncompressed_size : Nat) : List TarBatch :=
  packFiles max_uncompressed_size tpl
    (sortByMtime (all_files disk early_time late_time))

/-! ## Upload policy and the sync record writes (scraper.py lines
344-357, 881-911, 943-996, claims C1 and C3) -/

/-- `max_new_archived_datetime` (scraper.py lines 344-357): the day of
`utcnow - 1 day - 8 hours`, at 23:59:59.  In the epoch representation,
taking `.date()` of a datetime floors it to a multiple of 86400. -/
def max_new_archived_datetime (now_utc : Int) : Int :=
  Int.fdiv (now_utc - 86400 - 8 * 3600) 86400 * 86400 + 86399

/-- Models `datetime.datetime(t.year, t.month, t.day, 23, 59, 59)`
(scraper.py lines 990-993): the end of the calendar day containing `t`. -/
def dayEndOf (t : Int) : Int :=
  Int.fdiv t 86400 * 86400 + 86399

/-- The total size of a list of local files. -/
def sizeSum (l : List LocalBufferedFile) : Nat :=
  (l.map (·.size)).sum

/-- `upload_is_recommended` (scraper.py lines 881-888): whether the total
size of the files in the window exceeds the data buffer threshold. -/
def upload_is_recommended (disk : List LocalBufferedFile)
    (high_water_mark too_recent_boundary : Int)
    (data_buffer_threshold : Nat) : Prop :=
  sizeSum (all_files disk high_water_mark too_recent_boundary) >
    data_buffer_threshold

instance (disk : List LocalBufferedFile) (h t : Int) (b : Nat) :
    Decidable (upload_is_recommended disk h t b) :=
  inferInstanceAs (Decidable (_ > _))

/-- The observable outcome of one `upload_up_to_date` call on a cycle in
which every upload succeeds: the archives uploaded, the values written by
`sync_status.update_mtime` (epoch seconds) and the days written by
`sync_status.update_last_archived_date` (as days since epoch; the code
writes the formatted date string of a datetime, which is determined by
its day number). -/
structure CycleResult where
  uploaded : List TarBatch
  mtimeWrites : List Int
  dateWrites : List Int
deriving DecidableEq, Repr

/-- `upload_up_to_date` (scraper.py lines 943-996): pack the window
`(earliest_time, candidate_last_archived_mtime]` of the local disk into
archives and upload each.  The Python variable `max_mtime` after the
loop is None when nothing was yielded, and otherwise holds the
`max_mtime` component of the last yielded tuple.  If it is not None, the
code writes `update_last_archived_date(utcfromtimestamp(max_mtime))` and
`update_mtime(max_mtime)`; otherwise it writes the end of the day of
`candidate_last_archived_mtime` to both (lines 986-995). -/
def upload_up_to_date (tpl : TarfileTemplate)
    (disk : List LocalBufferedFile)
    (earliest_time candidate_last_archived_mtime : Int)
    (max_uncompressed_size : Nat) : CycleResult :=
  let archives := create_temporary_tarfiles tpl disk earliest_time
    candidate_last_archived_mtime max_uncompressed_size
  match archives.getLast? with
  | some last =>
    { uploaded := archives,
      mtimeWrites := [last.maxMtime],
      dateWrites := [Int.fdiv last.maxMtime 86400] }
  | none =>
    let datetime_value := dayEndOf candidate_last_archived_mtime
    { uploaded := [],
      mtimeWrites := [datetime_value],
      dateWrites := [Int.fdiv datetime_value 86400] }

/-- `upload_if_allowed` (scraper.py lines 891-911): if
`upload_is_recommended` over the window up to `now - data_wait_time`
holds, upload early up to that boundary, else upload up to
`max_new_archived_datetime()`.  `now_local` is `datetime.datetime.now()`
(line 901) and `now_utc` is `datetime.datetime.utcnow()` (line 355). -/
def upload_if_allowed (tpl : TarfileTemplate)
    (disk : List LocalBufferedFile) (high_water_mark : Int)
    (now_local now_utc data_wait_time : Int)
    (data_buffer_threshold : Nat) (max_uncompressed_size : Nat) :
    CycleResult :=
  let most_recent_allowable_mtime := now_local - data_wait_time
  if upload_is_recommended disk high_water_mark
      most_recent_allowable_mtime data_buffer_threshold then
    upload_up_to_date tpl disk high_water_mark
      most_recent_allowable_mtime max_uncompressed_size
  else
    upload_up_to_date tpl disk high_water_mark
      (max_new_archived_datetime now_utc) max_uncompressed_size

/-! ## Uploader error classification and retry (scraper.py lines 589-635,
claim C6) -/

/-- The exception handler of `upload_tarfile` (scraper.py lines 629-635):
`none` models an upload that completed; `some status` models an
`HttpError` with the given HTTP status, which is re-raised as recoverable
exactly when `status // 100 == 5` and as non-recoverable otherwise, in
both cases labelled upload. -/
def upload_tarfile_outcome (http_error_status : Option Nat) :
    Except ScraperError Unit :=
  match http_error_status with
  | none => .ok ()
  | some status =>
    if status / 100 = 5 then .error ⟨"upload", .recoverable⟩
    else .error ⟨"upload", .nonRecoverable⟩

/-- The sleep performed before retry attempt `n + 1` of the
`retry.retry(backoff=2, jitter=(1, 5), max_delay=300)` decorator on
`upload_tarfile` (scraper.py lines 590-594).  The retry library keeps a
delay variable starting at its default `delay=0`; after each failed
attempt it sleeps the current delay, multiplies it by `backoff`, adds a
jitter drawn uniformly from [1, 5] (modelled by the oracle `jitters`),
and caps it at `max_delay`. -/
def retrySleep (jitters : Nat → ℚ) : Nat → ℚ
  | 0 => 0
  | n + 1 => min (retrySleep jitters n * 2 + jitters n) 300

/-- The `_tries` counter of the retry decorator on `upload_tarfile`: it
starts from the library default `tries=-1` and is decremented once per
failure; the loop gives up when it reaches 0, which never happens. -/
def retryTries : Nat → Int
  | 0 => -1
  | n + 1 => retryTries n - 1

/-! ## Remote lister: stdout parsing (scraper.py lines 220-251, claim C5)

The stdout loop of `list_rsync_files` strips each line, skips lines
ending in the literal text " is uptodate", and emits a RemoteFile for
each line matching `files_regex`.  The regexes are embedded positionally:
both the timestamp pattern and the compiled `files_regex` consist of
fixed-length anchored pieces around a single `.*`, so a line matches
exactly when the fixed positions (counted from the start and from the
end) carry the required character classes.  This is a Python 2 byte
string regex, so `\d` is exactly the ASCII digits and `.` is any
character except the newline. -/

/-- The ASCII whitespace characters stripped by Python 2 `str.strip()`. -/
def isPySpace (c : Char) : Bool :=
  c == ' ' || c == '\t' || c == '\n' || c == '\r' || c == '\x0b' ||
    c == '\x0c'

/-- Python 2 `line.strip()` (scraper.py line 234). -/
def pyStrip (l : List Char) : List Char :=
  ((l.dropWhile isPySpace).reverse.dropWhile isPySpace).reverse

/-- Python `line.endswith(' is uptodate')` (scraper.py line 236). -/
def endsUptodate (l : List Char) : Bool :=
  (" is uptodate").data.isSuffixOf l

/-- The timestamp regex `\d{4}/\d\d/\d\d-\d\d:\d\d:\d\d` (scraper.py
line 223) as a check on an exact-length-19 character list. -/
def tsPat (ts : List Char) : Bool :=
  ts.length == 19 &&
  (ts.getD 0 ' ').isDigit && (ts.getD 1 ' ').isDigit &&
  (ts.getD 2 ' ').isDigit && (ts.getD 3 ' ').isDigit &&
  ts.getD 4 ' ' == '/' &&
  (ts.getD 5 ' ').isDigit && (ts.getD 6 ' ').isDigit &&
  ts.getD 7 ' ' == '/' &&
  (ts.getD 8 ' ').isDigit && (ts.getD 9 ' ').isDigit &&
  ts.getD 10 ' ' == '-' &&
  (ts.getD 11 ' ').isDigit && (ts.getD 12 ' ').isDigit &&
  ts.getD 13 ' ' == ':' &&
  (ts.getD 14 ' ').isDigit && (ts.getD 15 ' ').isDigit &&
  ts.getD 16 ' ' == ':' &&
  (ts.getD 17 ' ').isDigit && (ts.getD 18 ' ').isDigit

/-- The leading `\d{4}/\d\d/\d\d/` of both regexes: characters 0-10. -/
def dateDirShape (l : List Char) : Bool :=
  (l.getD 0 ' ').isDigit && (l.getD 1 ' ').isDigit &&
  (l.getD 2 ' ').isDigit && (l.getD 3 ' ').isDigit &&
  l.getD 4 ' ' == '/' &&
  (l.getD 5 ' ').isDigit && (l.getD 6 ' ').isDigit &&
  l.getD 7 ' ' == '/' &&
  (l.getD 8 ' ').isDigit && (l.getD 9 ' ').isDigit &&
  l.getD 10 ' ' == '/'

/-- The compiled `files_regex` of scraper.py lines 224-226, namely
the anchored pattern `\d{4}/\d\d/\d\d/.*[^/]` followed by one space and
the timestamp pattern: an 11-character date-directory head, an arbitrary
newline-free middle, a non-slash character at position length - 21, a
space at position length - 20 and a 19-character timestamp tail. -/
def codeMatch (l : List Char) : Bool :=
  let n := l.length
  decide (32 ≤ n) &&
  dateDirShape l &&
  decide (∀ i < n - 21, 11 ≤ i → l.getD i ' ' ≠ '\n') &&
  l.getD (n - 21) ' ' != '/' &&
  l.getD (n - 20) ' ' == ' ' &&
  tsPat (l.drop (n - 19))

/-- The pattern the specification states for the lister, namely the
anchored pattern `\d{4}/\d\d/\d\d/[^/].*` followed by one space and the
timestamp pattern: it requires a NON-SLASH character immediately after
the date-directory head (position 11), where the code instead requires
a non-slash character immediately before the space. -/
def specLineMatch (l : List Char) : Bool :=
  let n := l.length
  decide (32 ≤ n) &&
  dateDirShape l &&
  l.getD 11 ' ' != '/' &&
  decide (∀ i < n - 20, 12 ≤ i → l.getD i ' ' ≠ '\n') &&
  l.getD (n - 20) ' ' == ' ' &&
  tsPat (l.drop (n - 19))

/-- Python `line.rsplit(' ', 1)` (scraper.py line 242) for the guarded
call sites: everything before the last space, and everything after it.
When the line holds no space Python would return a single component and
the two-variable unpacking would fail; that case is unreachable because
the call is guarded by the regex match, and is modelled as `(l, [])`. -/
def pyRsplitSpace (l : List Char) : List Char × List Char :=
  let suf := (l.reverse.takeWhile (fun c => c != ' ')).reverse
  if suf.length = l.length then (l, [])
  else (l.take (l.length - suf.length - 1), suf)

/-- Gregorian leap-year test, as in Python's calendar handling. -/
def isLeapYear (y : Int) : Bool :=
  (Int.emod y 4 == 0 && Int.emod y 100 != 0) || Int.emod y 400 == 0

/-- Days in the given month of the given year. -/
def daysInMonth (y m : Int) : Int :=
  if m = 2 then (if isLeapYear y then 29 else 28)
  else if m = 4 ∨ m = 6 ∨ m = 9 ∨ m = 11 then 30
  else 31

/-- Models `datetime.datetime.strptime(timestamp_str, m-d-format)`
(scraper.py lines 243-244) on a 19-character candidate: if the string
matches the timestamp shape and its fields form a valid calendar
datetime, the resulting datetime as epoch seconds; `none` models the
ValueError strptime raises otherwise (year 0, month 0 or above 12, day
out of range for the month, hour above 23, minute or second above 59). -/
def parseTimestamp (ts : List Char) : Option Int :=
  if tsPat ts then
    let dv := fun i => ((ts.getD i ' ').toNat : Int) - 48
    let year := dv 0 * 1000 + dv 1 * 100 + dv 2 * 10 + dv 3
    let month := dv 5 * 10 + dv 6
    let day := dv 8 * 10 + dv 9
    let hour := dv 11 * 10 + dv 12
    let minute := dv 14 * 10 + dv 15
    let second := dv 17 * 10 + dv 18
    if 1 ≤ year ∧ 1 ≤ month ∧ month ≤ 12 ∧ 1 ≤ day ∧
        day ≤ daysInMonth year month ∧ hour ≤ 23 ∧ minute ≤ 59 ∧
        second ≤ 59 then
      some (daysFromCivil year month day * 86400 + hour * 3600 +
        minute * 60 + second)
    else none
  else none

/-- What the stdout loop of `list_rsync_files` does with one line. -/
inductive LineResult where
  | skipped
  | emitted (f : RemoteFile)
  | valueError
deriving DecidableEq, Repr

/-- One iteration of the stdout loop of `list_rsync_files` (scraper.py
lines 228-251): strip the line; skip it when it ends in " is uptodate";
when it matches `files_regex`, split on the last space, parse the
timestamp and emit a RemoteFile; otherwise skip it. -/
def processLine (raw : String) : LineResult :=
  let line := pyStrip raw.data
  if endsUptodate line then .skipped
  else if codeMatch line then
    match pyRsplitSpace line with
    | (filename, timestamp_str) =>
      match parseTimestamp timestamp_str with
      | some timestamp => .emitted ⟨String.mk filename, timestamp⟩
      | none => .valueError
  else .skipped

/-! ## Packer auxiliary predicates (claims C2 and C4)

These definitions restate, as predicates over the yielded batches, the
conditions the packer loop tests; the claim theorems below prove that the
batches satisfy them. -/

/-- The value of the packer's `min_mtime` accumulator over a batch: the
fold of `min_mtime = min(local_file.mtime, min_mtime)` starting from the
infinity that `none` models (scraper.py lines 549 and 571). -/
def listMin0 (fl : List LocalBufferedFile) : Option Int :=
  fl.foldl (fun o f => some (match o with
    | none => f.mtime
    | some m => min f.mtime m)) none

/-- The seal condition of scraper.py lines 555-557 as it relates a
sealed batch to the file that caused the seal (the head of the next
batch): the batch's total size plus that file's size exceeds
`max_uncompressed_size`, and that file's mtime differs from the mtime of
the batch's last file (which is `prev_timestamp` at that point). -/
def sealBoundary (max_uncompressed_size : Nat)
    (b b' : List LocalBufferedFile) : Prop :=
  match b.getLast?, b'.head? with
  | some x, some y =>
    sizeSum b + y.size > max_uncompressed_size ∧ y.mtime ≠ x.mtime
  | _, _ => False

/-- Inside a batch the seal condition never held: for every interior
position, appending the next file did not trigger a seal. -/
def noInteriorSeal (max_uncompressed_size : Nat)
    (fl : List LocalBufferedFile) : Prop :=
  ∀ p x y q, fl = p ++ x :: y :: q →
    ¬(sizeSum (p ++ [x]) + y.size > max_uncompressed_size ∧
      y.mtime ≠ x.mtime)

/-- A concrete tarfile template used by the concrete-input theorems. -/
def exampleTemplate : TarfileTemplate :=
  ⟨"/tmp", "mlab1", "abc01", "ndt"⟩

/-! ## Helper lemmas -/

/-- Membership characterization of `remove_older_files`. -/
theorem mem_remove_older_files {high : Int} {files : List RemoteFile}
    {f : RemoteFile} :
    f ∈ remove_older_files high files ↔
      f ∈ files ∧ 3 ≤ f.filename.data.count '/' ∧ high < f.mtime := by
  simp only [remove_older_files, List.mem_filter]
  constructor
  · rintro ⟨h1, h2⟩
    by_cases h : f.filename.data.count '/' < 3
    · rw [if_pos h] at h2
      exact absurd h2 (by simp)
    · rw [if_neg h] at h2
      have h3 : high < f.mtime := by simpa using h2
      exact ⟨h1, by omega, h3⟩
  · rintro ⟨h1, h2, h3⟩
    refine ⟨h1, ?_⟩
    rw [if_neg (by omega)]
    simpa using h3

/-- Membership characterization of `remove_too_recent_files`. -/
theorem mem_remove_too_recent_files {now_utc q : Int}
    {files : List RemoteFile} {f : RemoteFile} :
    f ∈ remove_too_recent_files now_utc q files ↔
      f ∈ files ∧ f.mtime < now_utc - q := by
  simp [remove_too_recent_files, List.mem_filter]

/-- For a positive divisor, Python floor division agrees with Lean's
`Int` division. -/
theorem fdiv_86400_eq (x : Int) : Int.fdiv x 86400 = x / 86400 :=
  Int.fdiv_eq_ediv x (by norm_num)

/-- The daily upload boundary is already the last second of a day. -/
theorem dayEndOf_max_new_archived (now_utc : Int) :
    dayEndOf (max_new_archived_datetime now_utc) =
      max_new_archived_datetime now_utc := by
  unfold dayEndOf max_new_archived_datetime
  rw [fdiv_86400_eq, fdiv_86400_eq]
  omega

/-! ## Claim C7 -/

/-- C7: the remote lister returns its parsed list of RemoteFile objects
when the rsync subprocess exits with code 0, 23, or 24, and for every
other exit code raises a recoverable error labelled rsync_listing. -/
theorem c7_listing_exit_code_policy (files : List RemoteFile)
    (returncode : Int) :
    (list_rsync_files_outcome files returncode = .ok files ↔
      returncode = 0 ∨ returncode = 23 ∨ returncode = 24) ∧
    (¬(returncode = 0 ∨ returncode = 23 ∨ returncode = 24) →
      list_rsync_files_outcome files returncode =
        .error ⟨"rsync_listing", .recoverable⟩) := by
  unfold list_rsync_files_outcome
  by_cases hmem : returncode ∈ ([0, 23, 24] : List Int)
  · rw [if_neg (not_not_intro hmem)]
    refine ⟨⟨fun _ => by simpa using hmem, fun _ => rfl⟩, fun h => ?_⟩
    exact absurd (by simpa using hmem) h
  · rw [if_pos hmem]
    refine ⟨⟨fun h => absurd h (by simp), fun h => ?_⟩, fun _ => rfl⟩
    exact absurd (by simpa using h) hmem

/-- Witness for C7 at concrete exit codes 23 and 1. -/
theorem c7_listing_exit_code_policy_witness :
    list_rsync_files_outcome [] 23 = .ok [] ∧
    list_rsync_files_outcome [] 1 =
      .error ⟨"rsync_listing", .recoverable⟩ :=
  ⟨(c7_listing_exit_code_policy [] 23).1.mpr (by decide),
   (c7_listing_exit_code_policy [] 1).2 (by decide)⟩

/-! ## Claim C10 -/

/-- C10: the high-water filter drops every RemoteFile whose path contains
fewer than three slash characters regardless of its mtime, in addition to
dropping files at or below the high-water mark, so everything it passes
on towards the downloader is in the input, has at least three slashes,
and is strictly above the high-water mark. -/
theorem c10_shallow_paths_never_downloaded (high : Int)
    (files : List RemoteFile) (f : RemoteFile) :
    (f.filename.data.count '/' < 3 → f ∉ remove_older_files high files) ∧
    (f.mtime ≤ high → f ∉ remove_older_files high files) ∧
    (f ∈ remove_older_files high files →
      f ∈ files ∧ 3 ≤ f.filename.data.count '/' ∧ high < f.mtime) := by
  refine ⟨?_, ?_, fun h => mem_remove_older_files.mp h⟩
  · intro hcnt hmem
    have := mem_remove_older_files.mp hmem
    omega
  · intro hm hmem
    have := mem_remove_older_files.mp hmem
    omega

/-- Witness for C10: a well-timed two-slash path is dropped. -/
theorem c10_shallow_paths_never_downloaded_witness :
    (⟨"2017/10", 50⟩ : RemoteFile) ∉
      remove_older_files 0 [⟨"2017/10", 50⟩] :=
  (c10_shallow_paths_never_downloaded 0 [⟨"2017/10", 50⟩]
    ⟨"2017/10", 50⟩).1 (by decide)

/-! ## Claim C8 -/

/-- C8 counterexample: the claim says exactly the files with
high < mtime <= quiescence_boundary are passed to the downloader.  With
high-water mark 0, now 10000 and the 900-second quiescence window, the
file at the boundary (mtime 9100 = 10000 - 900) and the shallow-path
file "x" (mtime 5000) both satisfy high < mtime <= boundary, yet the
code passes neither. -/
theorem c8_boundary_and_shallow_counterexample :
    download_filter 0 10000 900
        [⟨"2018/01/02/a", 9100⟩, ⟨"x", 5000⟩] = [] ∧
    ((0:Int) < 9100 ∧ (9100:Int) ≤ 10000 - 900) ∧
    ((0:Int) < 5000 ∧ (5000:Int) ≤ 10000 - 900) := by
  refine ⟨?_, by decide, by decide⟩
  rfl

/-- C8 amended: the files handed to the downloader are exactly those of
the listing whose path has at least three slashes and whose mtime
satisfies high_water_mark < mtime < now_utc - quiescence_period (the
upper comparison is strict, files exactly at the quiescence boundary are
excluded). -/
theorem c8_download_filter_characterization (high now_utc q : Int)
    (files : List RemoteFile) (f : RemoteFile) :
    f ∈ download_filter high now_utc q files ↔
      f ∈ files ∧ 3 ≤ f.filename.data.count '/' ∧
        high < f.mtime ∧ f.mtime < now_utc - q := by
  unfold download_filter
  rw [mem_remove_too_recent_files, mem_remove_older_files]
  tauto

/-- Witness for C8 at a concrete eligible file. -/
theorem c8_download_filter_characterization_witness :
    (⟨"2017/10/12/x", 5000⟩ : RemoteFile) ∈
      download_filter 0 10000 900 [⟨"2017/10/12/x", 5000⟩] :=
  (c8_download_filter_characterization 0 10000 900
      [⟨"2017/10/12/x", 5000⟩] ⟨"2017/10/12/x", 5000⟩).mpr
    ⟨by decide, by decide, by decide, by decide⟩

/-! ## Claims C1 and C3: what the cycle writes to the sync record -/

/-- C1: the claim says the last_archived_mtime written at the end of every
successful cycle is at least the value it held at the start, including
cycles in which nothing was packed.  The code violates this: with an
empty local buffer, a high-water mark of day 199 at noon (epoch
17236800, reachable by an earlier early-upload) and utcnow at midnight of
day 200 (epoch 17280000, so the daily boundary is day 198 at 23:59:59 =
epoch 17193599), the cycle uploads nothing but still writes
last_archived_mtime = 17193599, which is SMALLER than the 17236800 it
held at the start of the cycle. -/
theorem c1_high_water_mark_decreases_on_empty_cycle :
    ¬ upload_is_recommended [] 17236800 (17280000 - 3600) 100000000 ∧
    (upload_if_allowed exampleTemplate [] 17236800 17280000 17280000
        3600 100000000 1000000).mtimeWrites = [17193599] ∧
    (17193599 : Int) < 17236800 := by
  refine ⟨by decide, ?_, by decide⟩
  rfl

/-- C3 counterexample: the claim says that when neither upload-policy
condition holds, the cycle writes no new last_archived_mtime.  With an
empty buffer (so the early-upload condition fails), utcnow at midnight of
day 300 (epoch 25920000, daily boundary 25833599) and high-water mark
25876800 above that boundary (so the daily condition fails too), the
code still writes a last_archived_mtime. -/
theorem c3_writes_mtime_without_upload_counterexample :
    ¬ upload_is_recommended [] 25876800 (25920000 - 3600) 100000000 ∧
    max_new_archived_datetime 25920000 ≤ 25876800 ∧
    (upload_if_allowed exampleTemplate [] 25876800 25920000 25920000
        3600 100000000 1000000).mtimeWrites ≠ [] := by
  refine ⟨by decide, by decide, ?_⟩
  decide

/-- C3 amended: when neither upload-policy condition holds (the aged
buffered bytes do not exceed the threshold, and the daily boundary is not
strictly greater than the high-water mark), the cycle uploads no archive,
but it nevertheless writes last_archived_mtime = the daily boundary
(23:59:59 of the boundary's day, which is the boundary itself) and the
matching last_archived_date; the write is unconditional, not tied to an
archive having been uploaded. -/
theorem c3_no_upload_but_record_still_written
    (tpl : TarfileTemplate) (disk : List LocalBufferedFile)
    (high now_local now_utc data_wait_time : Int)
    (threshold max_uncompressed_size : Nat)
    (hrec : ¬ upload_is_recommended disk high (now_local - data_wait_time)
      threshold)
    (hdaily : max_new_archived_datetime now_utc ≤ high) :
    (upload_if_allowed tpl disk high now_local now_utc data_wait_time
        threshold max_uncompressed_size).uploaded = [] ∧
    (upload_if_allowed tpl disk high now_local now_utc data_wait_time
        threshold max_uncompressed_size).mtimeWrites =
      [max_new_archived_datetime now_utc] ∧
    (upload_if_allowed tpl disk high now_local now_utc data_wait_time
        threshold max_uncompressed_size).dateWrites =
      [Int.fdiv (max_new_archived_datetime now_utc) 86400] := by
  have hwin : all_files disk high (max_new_archived_datetime now_utc) = [] := by
    unfold all_files
    rw [List.filter_eq_nil_iff]
    intro f _
    simp only [decide_eq_true_eq, not_and, not_le]
    intro hf
    omega
  have harch : create_temporary_tarfiles tpl disk high
      (max_new_archived_datetime now_utc) max_uncompressed_size = [] := by
    unfold create_temporary_tarfiles sortByMtime
    rw [hwin]
    rfl
  unfold upload_if_allowed
  rw [if_neg hrec]
  unfold upload_up_to_date
  rw [harch]
  refine ⟨rfl, ?_, ?_⟩ <;> (rw [dayEndOf_max_new_archived]; rfl)

/-- Witness for C3 at the concrete counterexample input. -/
theorem c3_no_upload_but_record_still_written_witness :
    (upload_if_allowed exampleTemplate [] 25876800 25920000 25920000
        3600 100000000 1000000).uploaded = [] ∧
    (upload_if_allowed exampleTemplate [] 25876800 25920000 25920000
        3600 100000000 1000000).mtimeWrites = [25833599] ∧
    (upload_if_allowed exampleTemplate [] 25876800 25920000 25920000
        3600 100000000 1000000).dateWrites = [298] :=
  c3_no_upload_but_record_still_written exampleTemplate [] 25876800
    25920000 25920000 3600 100000000 1000000 (by decide) (by decide)

/-! ## Claim C6 -/

/-- C6: the uploader classifies an object-store HTTP error as recoverable
exactly when the status is 5xx and as non-recoverable otherwise, and the
retry decorator on it sleeps according to the recurrence
next = min(previous * 2 + jitter, 300) with jitter in [1, 5], so every
sleep is at most 300 seconds, and its attempt counter never reaches 0 -
attempts are unbounded. -/
theorem c6_upload_error_classification_and_retry :
    (∀ status : Nat,
      upload_tarfile_outcome (some status) =
          .error ⟨"upload", .recoverable⟩ ↔
        500 ≤ status ∧ status ≤ 599) ∧
    (∀ status : Nat, ¬(500 ≤ status ∧ status ≤ 599) →
      upload_tarfile_outcome (some status) =
        .error ⟨"upload", .nonRecoverable⟩) ∧
    (∀ jitters : Nat → ℚ, ∀ n,
      retrySleep jitters (n + 1) =
        min (retrySleep jitters n * 2 + jitters n) 300) ∧
    (∀ jitters : Nat → ℚ, (∀ n, 1 ≤ jitters n ∧ jitters n ≤ 5) →
      ∀ n, retrySleep jitters n ≤ 300) ∧
    (∀ n, retryTries n ≠ 0) := by
  have htries : ∀ n, retryTries n = -1 - n := by
    intro n
    induction n with
    | zero => rfl
    | succ k ih => rw [retryTries, ih]; push_cast; ring
  have e : ∀ status : Nat, upload_tarfile_outcome (some status) =
      if status / 100 = 5 then
        (.error ⟨"upload", .recoverable⟩ : Except ScraperError Unit)
      else .error ⟨"upload", .nonRecoverable⟩ := fun _ => rfl
  refine ⟨fun status => ?_, fun status h => ?_, fun jitters n => rfl,
    fun jitters hj n => ?_, fun n => by rw [htries]; omega⟩
  · rw [e]
    split_ifs with h5
    · simp only [Except.error.injEq, true_iff]
      omega
    · simp only [Except.error.injEq, ScraperError.mk.injEq, true_and]
      constructor
      · intro heq
        exact absurd heq (by decide)
      · intro hrange
        omega
  · rw [e, if_neg (by omega)]
  · cases n with
    | zero => norm_num [retrySleep]
    | succ k => exact min_le_right _ _

/-- Witness for C6: a 503 is recoverable, a 404 is not, and with jitter
fixed at 2 the fourth sleep is below the cap. -/
theorem c6_upload_error_classification_and_retry_witness :
    upload_tarfile_outcome (some 503) = .error ⟨"upload", .recoverable⟩ ∧
    upload_tarfile_outcome (some 404) =
      .error ⟨"upload", .nonRecoverable⟩ ∧
    retrySleep (fun _ => 2) 3 ≤ 300 :=
  ⟨(c6_upload_error_classification_and_retry.1 503).mpr (by decide),
   c6_upload_error_classification_and_retry.2.1 404 (by decide),
   c6_upload_error_classification_and_retry.2.2.2.1 (fun _ => 2)
     (fun _ => ⟨by norm_num, by norm_num⟩) 3⟩
/-! ## Claim C9 -/

/-- Every chunk produced by the download chunking is non-empty and holds
at most 1000 filenames. -/
theorem chunks1000_bounds (files : List String) :
    ∀ chunk ∈ chunks1000 files, chunk ≠ [] ∧ chunk.length ≤ 1000 := by
  intro c hc
  simp only [chunks1000, FILES_PER_RSYNC_DOWNLOAD, List.mem_map,
    List.mem_range] at hc
  obtain ⟨k, hk, rfl⟩ := hc
  have hlt : k * 1000 < files.length := by omega
  constructor
  · rw [← List.length_pos_iff_ne_nil, List.length_take, List.length_drop]
    omega
  · rw [List.length_take]
    omega

/-- The download chunks concatenate back to the full filename list. -/
theorem chunks1000_flatten (files : List String) :
    (chunks1000 files).flatten = files := by
  suffices H : ∀ n (l : List String), l.length ≤ n →
      (chunks1000 l).flatten = l from H files.length files le_rfl
  intro n
  induction n with
  | zero =>
    intro l hl
    have : l = [] := by
      cases l
      · rfl
      · simp at hl
    subst this
    simp [chunks1000]
  | succ n ih =>
    intro l hl
    by_cases h0 : l = []
    · subst h0
      simp [chunks1000]
    · have hlen : 0 < l.length := List.length_pos.mpr h0
      have hcount : (l.length + (FILES_PER_RSYNC_DOWNLOAD - 1)) /
          FILES_PER_RSYNC_DOWNLOAD =
          ((l.drop 1000).length + (FILES_PER_RSYNC_DOWNLOAD - 1)) /
            FILES_PER_RSYNC_DOWNLOAD + 1 := by
        simp only [List.length_drop, FILES_PER_RSYNC_DOWNLOAD]
        omega
      rw [chunks1000, hcount, List.range_succ_eq_map]
      simp only [List.map_cons, List.map_map, List.flatten_cons,
        Nat.zero_mul, List.drop_zero]
      have hmap : ((List.range (((l.drop 1000).length +
          (FILES_PER_RSYNC_DOWNLOAD - 1)) / FILES_PER_RSYNC_DOWNLOAD)).map
            ((fun k => (l.drop (k * FILES_PER_RSYNC_DOWNLOAD)).take
              FILES_PER_RSYNC_DOWNLOAD) ∘ Nat.succ)) =
          (List.range (((l.drop 1000).length +
          (FILES_PER_RSYNC_DOWNLOAD - 1)) / FILES_PER_RSYNC_DOWNLOAD)).map
            (fun k => ((l.drop 1000).drop
              (k * FILES_PER_RSYNC_DOWNLOAD)).take
              FILES_PER_RSYNC_DOWNLOAD) := by
        refine List.map_congr_left (fun k _ => ?_)
        simp only [Function.comp_apply, List.drop_drop,
          FILES_PER_RSYNC_DOWNLOAD]
        congr 2
        omega
      rw [hmap]
      have htail : (chunks1000 (l.drop 1000)).flatten = l.drop 1000 :=
        ih (l.drop 1000) (by simp only [List.length_drop]; omega)
      rw [chunks1000] at htail
      rw [show (1000 : Nat) = FILES_PER_RSYNC_DOWNLOAD from rfl] at htail ⊢
      rw [htail]
      exact List.take_append_drop _ l

/-- When all per-invocation exit codes are 0 or 24, every chunk is
transferred. -/
theorem download_chunks_all_ok (codes : Nat → Int)
    (L : List (List String)) :
    ∀ i, (∀ j < L.length, codes (i + j) = 0 ∨ codes (i + j) = 24) →
      download_chunks codes i L = .ok L := by
  induction L with
  | nil => intro i _; rfl
  | cons c rest ih =>
    intro i h
    have h0 : codes i = 0 ∨ codes i = 24 := by
      have := h 0 (by simp)
      simpa using this
    rw [download_chunks, if_neg (not_not_intro (by simpa using h0))]
    rw [ih (i + 1) (fun j hj => by
      rw [show i + 1 + j = i + (j + 1) from by omega]
      exact h (j + 1) (by simp only [List.length_cons]; omega))]

/-- When some per-invocation exit code in range is neither 0 nor 24, the
download raises the recoverable rsync_download error. -/
theorem download_chunks_err (codes : Nat → Int)
    (L : List (List String)) :
    ∀ i, (∃ j < L.length, ¬(codes (i + j) = 0 ∨ codes (i + j) = 24)) →
      download_chunks codes i L =
        .error ⟨"rsync_download", .recoverable⟩ := by
  induction L with
  | nil => intro i h; simp at h
  | cons c rest ih =>
    intro i h
    by_cases h0 : codes i = 0 ∨ codes i = 24
    · rw [download_chunks, if_neg (not_not_intro (by simpa using h0))]
      have hrest : ∃ j < rest.length,
          ¬(codes (i + 1 + j) = 0 ∨ codes (i + 1 + j) = 24) := by
        obtain ⟨j, hj, hbad⟩ := h
        cases j with
        | zero => exact absurd (by simpa using h0) hbad
        | succ k =>
          refine ⟨k, by simp only [List.length_cons] at hj; omega, ?_⟩
          rw [show i + 1 + k = i + (k + 1) from by omega]
          exact hbad
      rw [ih (i + 1) hrest]
    · rw [download_chunks, if_pos (by simpa using h0)]

/-- C9: the downloader performs no rsync invocation at all on empty
input; otherwise it invokes rsync on the chunks of at most 1000 paths
each, whose concatenation is the full path list; a cycle of exit codes
that are all 0 or 24 transfers every chunk, and any other exit code in
range makes the download raise a recoverable error labelled
rsync_download. -/
theorem c9_download_batching (files : List RemoteFile)
    (codes : Nat → Int) :
    (files = [] → download_files files codes = .ok []) ∧
    (∀ chunk ∈ chunks1000 (files.map (·.filename)),
      chunk ≠ [] ∧ chunk.length ≤ 1000) ∧
    ((chunks1000 (files.map (·.filename))).flatten =
      files.map (·.filename)) ∧
    ((∀ i < (chunks1000 (files.map (·.filename))).length,
        codes i = 0 ∨ codes i = 24) →
      download_files files codes =
        .ok (chunks1000 (files.map (·.filename)))) ∧
    ((∃ i < (chunks1000 (files.map (·.filename))).length,
        ¬(codes i = 0 ∨ codes i = 24)) →
      download_files files codes =
        .error ⟨"rsync_download", .recoverable⟩) := by
  refine ⟨fun h => by subst h; rfl, chunks1000_bounds _, chunks1000_flatten _,
    fun h => ?_, fun h => ?_⟩
  · simp only [download_files]
    split_ifs with hnil
    · rw [hnil]
      rfl
    · exact download_chunks_all_ok codes _ 0 (by simpa using h)
  · simp only [download_files]
    split_ifs with hnil
    · rw [hnil] at h
      have : chunks1000 [] = [] := rfl
      rw [this] at h
      simp at h
    · exact download_chunks_err codes _ 0 (by simpa using h)

/-- Witness for C9: two files form one chunk transferred with exit code
24, the empty input is a no-op, and exit code 23 fails the download. -/
theorem c9_download_batching_witness :
    download_files [⟨"2017/10/12/a", 1⟩, ⟨"2017/10/12/b", 2⟩]
        (fun _ => 24) = .ok [["2017/10/12/a", "2017/10/12/b"]] ∧
    download_files [] (fun _ => 1) = .ok [] ∧
    download_files [⟨"2017/10/12/a", 1⟩] (fun _ => 23) =
      .error ⟨"rsync_download", .recoverable⟩ :=
  ⟨by
    have := (c9_download_batching
      [⟨"2017/10/12/a", 1⟩, ⟨"2017/10/12/b", 2⟩]
      (fun _ => 24)).2.2.2.1 (fun _ _ => Or.inr rfl)
    exact this,
   (c9_download_batching [] (fun _ => 1)).1 rfl,
   (c9_download_batching [⟨"2017/10/12/a", 1⟩] (fun _ => 23)).2.2.2.2
     ⟨0, by decide, by decide⟩⟩

/-! ## Claim C5 -/

/-- An ASCII digit is not a space. -/
theorem isDigit_ne_space {c : Char} (h : c.isDigit = true) : c ≠ ' ' := by
  intro hc
  rw [hc] at h
  exact absurd h (by decide)

/-- A character equal to a non-space character is not a space. -/
theorem punct_ne_space {c p : Char} (h : c = p) (hp : p ≠ ' ') :
    c ≠ ' ' := by
  rw [h]
  exact hp

/-- A timestamp-shaped character list has length 19 and contains no
space. -/
theorem tsPat_facts {ts : List Char} (h : tsPat ts = true) :
    ts.length = 19 ∧ ∀ i < 19, ts.getD i ' ' ≠ ' ' := by
  simp only [tsPat, Bool.and_eq_true, beq_iff_eq, and_assoc] at h
  obtain ⟨hlen, h0, h1, h2, h3, h4, h5, h6, h7, h8, h9, h10, h11, h12,
    h13, h14, h15, h16, h17, h18⟩ := h
  refine ⟨hlen, fun i hi => ?_⟩
  interval_cases i <;>
    first
      | exact isDigit_ne_space h0 | exact isDigit_ne_space h1
      | exact isDigit_ne_space h2 | exact isDigit_ne_space h3
      | exact punct_ne_space h4 (by decide)
      | exact isDigit_ne_space h5 | exact isDigit_ne_space h6
      | exact punct_ne_space h7 (by decide)
      | exact isDigit_ne_space h8 | exact isDigit_ne_space h9
      | exact punct_ne_space h10 (by decide)
      | exact isDigit_ne_space h11 | exact isDigit_ne_space h12
      | exact punct_ne_space h13 (by decide)
      | exact isDigit_ne_space h14 | exact isDigit_ne_space h15
      | exact punct_ne_space h16 (by decide)
      | exact isDigit_ne_space h17 | exact isDigit_ne_space h18

/-- On a line matching `files_regex`, the rsplit on the last space
separates the line exactly into the filename (everything up to the space
at position length - 20) and the 19-character timestamp, because the
timestamp region holds no further space. -/
theorem pyRsplitSpace_of_codeMatch {l : List Char} (h : codeMatch l = true) :
    pyRsplitSpace l = (l.take (l.length - 20), l.drop (l.length - 19)) := by
  simp only [codeMatch, Bool.and_eq_true, decide_eq_true_eq, beq_iff_eq,
    bne_iff_ne, and_assoc] at h
  obtain ⟨hn, hshape, hmid, hns, hsp, hts⟩ := h
  obtain ⟨hlen19, hnosp⟩ := tsPat_facts hts
  have hmem : ∀ c ∈ l.drop (l.length - 19), (c != ' ') = true := by
    intro c hc
    obtain ⟨i, hi, rfl⟩ := List.mem_iff_getElem.mp hc
    have hi19 : i < 19 := by rw [hlen19] at hi; exact hi
    rw [bne_iff_ne, ← List.getD_eq_getElem _ ' ' hi]
    exact hnosp i hi19
  have htake : l.take (l.length - 19) =
      l.take (l.length - 20) ++ [l.getD (l.length - 20) ' '] := by
    have h1 : l.length - 19 = (l.length - 20) + 1 := by omega
    rw [h1, List.take_succ]
    congr 1
    rw [List.getElem?_eq_getElem (by omega),
      List.getD_eq_getElem _ ' ' (by omega)]
    rfl
  have hrev : l.reverse = (l.drop (l.length - 19)).reverse ++
      (' ' :: (l.take (l.length - 20)).reverse) := by
    conv_lhs => rw [← List.take_append_drop (l.length - 19) l]
    rw [List.reverse_append, htake, List.reverse_append, hsp]
    rfl
  have htw : l.reverse.takeWhile (fun c => c != ' ') =
      (l.drop (l.length - 19)).reverse := by
    rw [hrev, List.takeWhile_append]
    rw [if_pos]
    · rw [List.takeWhile_cons, if_neg (by decide), List.append_nil]
    · rw [List.takeWhile_eq_self_iff.mpr
        (fun c hc => hmem c (List.mem_reverse.mp hc))]
  have hsuf : (l.reverse.takeWhile (fun c => c != ' ')).reverse =
      l.drop (l.length - 19) := by
    rw [htw, List.reverse_reverse]
  simp only [pyRsplitSpace, hsuf]
  rw [List.length_drop]
  have h19 : l.length - (l.length - 19) = 19 := by omega
  rw [h19, if_neg (by omega)]
  have h20 : l.length - 19 - 1 = l.length - 20 := by omega
  rw [h20]

/-- C5 counterexample: the spec's regex requires a non-slash immediately
after the date directories, the code's regex instead requires a
non-slash immediately before the mtime column.  On the line
2017/10/12//x followed by a valid timestamp, the code emits a RemoteFile
although the spec pattern rejects the line; on the line 2017/10/12/x/
followed by a valid timestamp, the spec pattern matches but the code
emits nothing. -/
theorem c5_lister_regex_counterexample :
    processLine "2017/10/12//x 2017/10/13-08:51:08" =
      .emitted ⟨"2017/10/12//x", 1507884668⟩ ∧
    specLineMatch
      (pyStrip ("2017/10/12//x 2017/10/13-08:51:08").data) = false ∧
    endsUptodate
      (pyStrip ("2017/10/12//x 2017/10/13-08:51:08").data) = false ∧
    processLine "2017/10/12/x/ 2017/10/13-08:51:08" = .skipped ∧
    specLineMatch
      (pyStrip ("2017/10/12/x/ 2017/10/13-08:51:08").data) = true := by
  refine ⟨by decide, by decide, by decide, by decide, by decide⟩

/-- C5 amended: a (stripped) line of rsync listing output yields a
RemoteFile exactly when it does not end with " is uptodate", matches the
code's pattern `\d{4}/\d\d/\d\d/.*[^/] \d{4}/\d\d/\d\d-\d\d:\d\d:\d\d`
(anchored; non-slash immediately BEFORE the mtime column, not after the
date prefix as the spec says), and the timestamp denotes a valid
calendar datetime (otherwise strptime raises).  Every emitted path is
the line up to the final space; it starts with the date-directory shape
and does not end with a slash, but it may continue with a slash right
after the date directories. -/
theorem c5_lister_line_characterization (raw : String) :
    ((∃ f, processLine raw = .emitted f) ↔
      (endsUptodate (pyStrip raw.data) = false ∧
       codeMatch (pyStrip raw.data) = true ∧
       (parseTimestamp
         ((pyStrip raw.data).drop ((pyStrip raw.data).length - 19))).isSome
           = true)) ∧
    (∀ f, processLine raw = .emitted f →
      f.filename.data =
        (pyStrip raw.data).take ((pyStrip raw.data).length - 20) ∧
      dateDirShape f.filename.data = true ∧
      12 ≤ f.filename.data.length ∧
      f.filename.data.getLast? ≠ some '/') := by
  simp only [processLine]
  generalize pyStrip raw.data = l
  by_cases hup : endsUptodate l = true
  · rw [if_pos hup]
    constructor
    · constructor
      · rintro ⟨f, hf⟩
        exact absurd hf (by simp)
      · rintro ⟨h1, -⟩
        rw [hup] at h1
        cases h1
    · intro f hf
      exact absurd hf (by simp)
  · rw [if_neg hup]
    have hupf : endsUptodate l = false := by
      cases hcase : endsUptodate l
      · rfl
      · exact absurd hcase hup
    by_cases hcm : codeMatch l = true
    · rw [if_pos hcm]
      have hrs := pyRsplitSpace_of_codeMatch hcm
      rw [hrs]
      obtain ⟨hn, hshape, hmid, hns, hsp, hts⟩ : 32 ≤ l.length ∧
          dateDirShape l = true ∧
          (∀ i < l.length - 21, 11 ≤ i → l.getD i ' ' ≠ '\n') ∧
          l.getD (l.length - 21) ' ' ≠ '/' ∧
          l.getD (l.length - 20) ' ' = ' ' ∧
          tsPat (l.drop (l.length - 19)) = true := by
        simpa only [codeMatch, Bool.and_eq_true, decide_eq_true_eq,
          beq_iff_eq, bne_iff_ne, and_assoc] using hcm
      have hlen20 : (l.take (l.length - 20)).length = l.length - 20 := by
        rw [List.length_take]
        omega
      have hgetd : ∀ i, i < 11 →
          (l.take (l.length - 20)).getD i ' ' = l.getD i ' ' := by
        intro i hi
        rw [List.getD_eq_getElem _ ' ' (by rw [hlen20]; omega),
          List.getD_eq_getElem _ ' ' (by omega)]
        exact List.getElem_take l
      cases hpt : parseTimestamp (l.drop (l.length - 19)) with
      | none =>
        constructor
        · constructor
          · rintro ⟨f, hf⟩
            have hf' : LineResult.valueError = LineResult.emitted f := hf
            exact absurd hf' (by simp)
          · rintro ⟨-, -, h3⟩
            exact absurd h3 (by decide)
        · intro f hf
          have hf' : LineResult.valueError = LineResult.emitted f := hf
          exact absurd hf' (by simp)
      | some t =>
        constructor
        · exact Iff.intro
            (fun _ => ⟨hupf, hcm, rfl⟩)
            (fun _ => ⟨⟨String.mk (l.take (l.length - 20)), t⟩, rfl⟩)
        · intro f hf
          have hf' : LineResult.emitted
              ⟨String.mk (l.take (l.length - 20)), t⟩ =
              LineResult.emitted f := hf
          have hfeq : f = ⟨String.mk (l.take (l.length - 20)), t⟩ := by
            injection hf' with h
            exact h.symm
          subst hfeq
          refine ⟨rfl, ?_, ?_, ?_⟩
          · show dateDirShape (l.take (l.length - 20)) = true
            simp only [dateDirShape] at hshape ⊢
            rw [hgetd 0 (by omega), hgetd 1 (by omega), hgetd 2 (by omega),
              hgetd 3 (by omega), hgetd 4 (by omega), hgetd 5 (by omega),
              hgetd 6 (by omega), hgetd 7 (by omega), hgetd 8 (by omega),
              hgetd 9 (by omega), hgetd 10 (by omega)]
            exact hshape
          · show 12 ≤ (l.take (l.length - 20)).length
            rw [hlen20]
            omega
          · show (l.take (l.length - 20)).getLast? ≠ some '/'
            rw [List.getLast?_eq_getElem?, hlen20, List.getElem?_take]
            rw [show l.length - 20 - 1 = l.length - 21 from by omega]
            rw [if_pos (by omega)]
            rw [List.getElem?_eq_getElem (by omega)]
            intro heq
            injection heq with heq'
            apply hns
            rw [List.getD_eq_getElem _ ' ' (by omega)]
            exact heq'
    · rw [if_neg hcm]
      constructor
      · constructor
        · rintro ⟨f, hf⟩
          exact absurd hf (by simp)
        · rintro ⟨-, h2, -⟩
          exact absurd h2 hcm
      · intro f hf
        exact absurd hf (by simp)

/-- Witness for C5 at a well-formed listing line. -/
theorem c5_lister_line_characterization_witness :
    (∃ f, processLine "2017/10/12/x.gz 2017/10/13-08:51:08" =
      .emitted f) ∧
    dateDirShape ("2017/10/12/x.gz").data = true ∧
    ("2017/10/12/x.gz").data.getLast? ≠ some '/' := by
  refine ⟨(c5_lister_line_characterization
      "2017/10/12/x.gz 2017/10/13-08:51:08").1.mpr
      ⟨by decide, by decide, by decide⟩, ?_, ?_⟩
  · exact ((c5_lister_line_characterization
      "2017/10/12/x.gz 2017/10/13-08:51:08").2
      ⟨"2017/10/12/x.gz", 1507884668⟩ (by decide)).2.1
  · exact ((c5_lister_line_characterization
      "2017/10/12/x.gz 2017/10/13-08:51:08").2
      ⟨"2017/10/12/x.gz", 1507884668⟩ (by decide)).2.2.2

/-! ## Packer lemmas (claims C2 and C4) -/

/-- The packer step when the seal condition holds. -/
theorem packStep_eq_seal {ms : Nat} {tpl : TarfileTemplate} {st : PackSt}
    {f : LocalBufferedFile}
    (hc : st.tarfile_files ≠ [] ∧ st.tarfile_size + f.size > ms ∧
      st.prev_timestamp ≠ some f.mtime) :
    packStep ms tpl st f =
      { tarfile_files := [f], tarfile_size := 0 + f.size,
        min_mtime := some (min f.mtime f.mtime),
        max_mtime := max f.mtime st.max_mtime,
        prev_timestamp := some f.mtime,
        out := st.out ++ [sealBatch tpl st] } := by
  simp only [packStep, if_pos hc]
  rfl

/-- The packer step when the seal condition does not hold. -/
theorem packStep_eq_noseal {ms : Nat} {tpl : TarfileTemplate} {st : PackSt}
    {f : LocalBufferedFile}
    (hc : ¬(st.tarfile_files ≠ [] ∧ st.tarfile_size + f.size > ms ∧
      st.prev_timestamp ≠ some f.mtime)) :
    packStep ms tpl st f =
      { tarfile_files := st.tarfile_files ++ [f],
        tarfile_size := st.tarfile_size + f.size,
        min_mtime := some (match st.min_mtime with
          | none => f.mtime
          | some m => min f.mtime m),
        max_mtime := max f.mtime st.max_mtime,
        prev_timestamp := some f.mtime,
        out := st.out } := by
  simp only [packStep, if_neg hc]

/-- Batch size grows by the appended file's size. -/
theorem sizeSum_append_singleton (A : List LocalBufferedFile)
    (f : LocalBufferedFile) :
    sizeSum (A ++ [f]) = sizeSum A + f.size := by
  simp [sizeSum]

/-- Appending a file folds it into the min accumulator. -/
theorem listMin0_append_singleton (A : List LocalBufferedFile)
    (f : LocalBufferedFile) :
    listMin0 (A ++ [f]) = some (match listMin0 A with
      | none => f.mtime
      | some m => min f.mtime m) := by
  simp only [listMin0, List.foldl_append]
  rfl

/-- A non-empty batch has a min accumulator value. -/
theorem listMin0_of_ne_nil {fl : List LocalBufferedFile} (h : fl ≠ []) :
    ∃ m, listMin0 fl = some m := by
  rcases List.eq_nil_or_concat fl with h0 | ⟨L, b, rfl⟩
  · exact absurd h0 h
  · rw [List.concat_eq_append, listMin0_append_singleton]
    exact ⟨_, rfl⟩

/-- The min accumulator value is the minimum of the batch mtimes: a lower
bound that is attained. -/
theorem listMin0_spec (fl : List LocalBufferedFile) :
    ∀ m : Int, listMin0 fl = some m →
      (∀ x ∈ fl, m ≤ x.mtime) ∧ m ∈ fl.map (·.mtime) := by
  induction fl using List.reverseRecOn with
  | nil => intro m h; cases h
  | append_singleton A f ih =>
    intro m h
    rw [listMin0_append_singleton] at h
    cases hA : listMin0 A with
    | none =>
      rw [hA] at h
      injection h with h
      have hm : f.mtime = m := h
      subst hm
      have hAnil : A = [] := by
        by_contra hne
        obtain ⟨mA, hmA⟩ := listMin0_of_ne_nil hne
        rw [hmA] at hA
        cases hA
      subst hAnil
      constructor
      · intro x hx
        simp only [List.nil_append, List.mem_singleton] at hx
        subst hx
        exact le_refl _
      · simp
    | some mA =>
      rw [hA] at h
      injection h with h
      have hm : min f.mtime mA = m := h
      subst hm
      obtain ⟨ihA, ihmem⟩ := ih mA hA
      constructor
      · intro x hx
        rcases List.mem_append.mp hx with hx | hx
        · exact le_trans (min_le_right _ _) (ihA x hx)
        · rw [List.mem_singleton] at hx
          subst hx
          exact min_le_left _ _
      · rcases min_choice f.mtime mA with hmin | hmin <;> rw [hmin]
        · simp
        · simp only [List.map_append, List.mem_append]
          exact Or.inl ihmem

/-- A batch with at most one file has no interior position. -/
theorem noInteriorSeal_short {ms : Nat} {fl : List LocalBufferedFile}
    (h : fl.length ≤ 1) : noInteriorSeal ms fl := by
  intro p x y q heq
  exfalso
  have hlen := congrArg List.length heq
  simp only [List.length_append, List.length_cons] at hlen
  omega

/-- The seal-boundary relation only looks at the head of its second
argument. -/
theorem sealBoundary_head_congr {ms : Nat}
    {b b' b'' : List LocalBufferedFile} (h : b'.head? = b''.head?) :
    sealBoundary ms b b' ↔ sealBoundary ms b b'' := by
  unfold sealBoundary
  rw [h]

/-- Decomposing an interior position of a batch after appending a file:
it is either the new final position or an interior position of the old
batch. -/
theorem append_singleton_decomp {α : Type} {A : List α} {f : α}
    {p : List α} {x y : α} {q : List α}
    (h : A ++ [f] = p ++ x :: y :: q) :
    (q = [] ∧ y = f ∧ A = p ++ [x]) ∨
    (∃ q', q = q' ++ [f] ∧ A = p ++ x :: y :: q') := by
  rcases List.eq_nil_or_concat q with rfl | ⟨q', b, rfl⟩
  · left
    have h' : A ++ [f] = (p ++ [x]) ++ [y] := by
      rw [h]
      simp
    obtain ⟨hA, hf⟩ := List.append_inj' h' rfl
    have hyf : y = f := by
      simpa using hf.symm
    exact ⟨rfl, hyf, hA⟩
  · right
    rw [List.concat_eq_append] at h
    have h' : A ++ [f] = (p ++ x :: y :: q') ++ [b] := by
      rw [h]
      simp
    obtain ⟨hA, hf⟩ := List.append_inj' h' rfl
    have hbf : f = b := by
      simpa using hf
    subst hbf
    exact ⟨q', List.concat_eq_append q' f, hA⟩

/-- The files of the yielded batches concatenate exactly to the processed
file stream appended to what was already in flight. -/
theorem packGo_flatten (ms : Nat) (tpl : TarfileTemplate) :
    ∀ (l : List LocalBufferedFile) (st : PackSt),
      ((packGo ms tpl st l).map (·.files)).flatten =
        (st.out.map (·.files)).flatten ++ st.tarfile_files ++ l := by
  intro l
  induction l with
  | nil =>
    intro st
    simp only [packGo]
    split_ifs with h
    · simp [h]
    · simp [sealBatch]
  | cons f rest ih =>
    intro st
    simp only [packGo]
    rw [ih]
    by_cases hc : st.tarfile_files ≠ [] ∧ st.tarfile_size + f.size > ms ∧
        st.prev_timestamp ≠ some f.mtime
    · rw [packStep_eq_seal hc]
      simp [sealBatch, List.append_assoc]
    · rw [packStep_eq_noseal hc]
      simp [List.append_assoc]

/-- Introduction rule for the seal-boundary relation. -/
theorem sealBoundary_intro {ms : Nat} {b b' : List LocalBufferedFile}
    {x y : LocalBufferedFile} (hx : b.getLast? = some x)
    (hy : b'.head? = some y) (h1 : sizeSum b + y.size > ms)
    (h2 : y.mtime ≠ x.mtime) : sealBoundary ms b b' := by
  unfold sealBoundary
  rw [hx, hy]
  exact ⟨h1, h2⟩

/-- The head of a list is unchanged by appending to a non-empty list. -/
theorem head?_append_of_ne_nil {α : Type} {A : List α} (B : List α)
    (h : A ≠ []) : (A ++ B).head? = A.head? := by
  cases A with
  | nil => exact absurd rfl h
  | cons a A' => rfl

/-- The structural invariants of the packer loop: starting from a state
whose in-flight batch is consistent (running size, previous timestamp and
min accumulator match the batch; sealed batches are non-empty, seal
boundaries hold between consecutive sealed batches and into the open
batch, no interior seal point exists, and each sealed batch's min and
name are correct), every batch the loop yields is non-empty, consecutive
yielded batches are separated by a true seal condition, no yielded batch
has an interior seal point, and each yielded batch is named from its
min-mtime accumulator. -/
theorem packGo_shape (ms : Nat) (tpl : TarfileTemplate) :
    ∀ (l : List LocalBufferedFile) (st : PackSt),
      st.tarfile_size = sizeSum st.tarfile_files →
      st.prev_timestamp = (st.tarfile_files.getLast?).map (·.mtime) →
      st.min_mtime = listMin0 st.tarfile_files →
      (st.out ≠ [] → st.tarfile_files ≠ []) →
      (∀ b ∈ st.out, b.files ≠ []) →
      List.Chain' (sealBoundary ms) (st.out.map (·.files) ++
        (if st.tarfile_files = [] then [] else [st.tarfile_files])) →
      (∀ b ∈ st.out, noInteriorSeal ms b.files) →
      noInteriorSeal ms st.tarfile_files →
      (∀ b ∈ st.out, some b.minMtime = listMin0 b.files ∧
        b.name = tpl.create_filename b.minMtime) →
      (∀ b ∈ packGo ms tpl st l, b.files ≠ []) ∧
      List.Chain' (sealBoundary ms) ((packGo ms tpl st l).map (·.files)) ∧
      (∀ b ∈ packGo ms tpl st l, noInteriorSeal ms b.files) ∧
      (∀ b ∈ packGo ms tpl st l, some b.minMtime = listMin0 b.files ∧
        b.name = tpl.create_filename b.minMtime) := by
  intro l
  induction l with
  | nil =>
    intro st hsz hpv hmn hoc hne hch hint hintcur hmb
    simp only [packGo]
    split_ifs with h
    · rw [if_pos h, List.append_nil] at hch
      exact ⟨hne, hch, hint, hmb⟩
    · rw [if_neg h] at hch
      refine ⟨?_, ?_, ?_, ?_⟩
      · intro b hb
        rcases List.mem_append.mp hb with hb | hb
        · exact hne b hb
        · rw [List.mem_singleton] at hb
          subst hb
          exact h
      · rw [List.map_append]
        exact hch
      · intro b hb
        rcases List.mem_append.mp hb with hb | hb
        · exact hint b hb
        · rw [List.mem_singleton] at hb
          subst hb
          exact hintcur
      · intro b hb
        rcases List.mem_append.mp hb with hb | hb
        · exact hmb b hb
        · rw [List.mem_singleton] at hb
          subst hb
          obtain ⟨m, hm⟩ := listMin0_of_ne_nil h
          constructor
          · show some (st.min_mtime.getD 0) = listMin0 st.tarfile_files
            rw [hmn, hm]
            rfl
          · rfl
  | cons f rest ih =>
    intro st hsz hpv hmn hoc hne hch hint hintcur hmb
    simp only [packGo]
    by_cases hc : st.tarfile_files ≠ [] ∧ st.tarfile_size + f.size > ms ∧
        st.prev_timestamp ≠ some f.mtime
    · rw [packStep_eq_seal hc]
      apply ih
      · simp [sizeSum]
      · rfl
      · rw [min_self]
        rfl
      · intro _
        simp
      · intro b hb
        rcases List.mem_append.mp hb with hb | hb
        · exact hne b hb
        · rw [List.mem_singleton] at hb
          subst hb
          exact hc.1
      · rw [if_neg (by simp), List.map_append]
        rw [if_neg hc.1] at hch
        have hshow : (List.map (fun b => b.files) st.out ++
            List.map (fun b => b.files) [sealBatch tpl st]) ++
              [[f]] =
            (List.map (fun b => b.files) st.out ++ [st.tarfile_files]) ++
              [[f]] := rfl
        rw [hshow]
        apply List.chain'_append.mpr
        refine ⟨hch, List.chain'_singleton _, ?_⟩
        intro x hx y hy
        simp only [List.getLast?_concat, Option.mem_def, Option.some_inj]
          at hx
        simp only [List.head?_cons, Option.mem_def, Option.some_inj] at hy
        subst hx
        subst hy
        obtain ⟨L, xl, hL⟩ := (List.eq_nil_or_concat
          st.tarfile_files).resolve_left hc.1
        rw [List.concat_eq_append] at hL
        refine sealBoundary_intro (x := xl) (y := f) ?_ rfl ?_ ?_
        · rw [hL, List.getLast?_concat]
        · rw [← hsz]
          exact hc.2.1
        · intro heq
          apply hc.2.2
          rw [hpv, hL, List.getLast?_concat]
          simp [heq]
      · intro b hb
        rcases List.mem_append.mp hb with hb | hb
        · exact hint b hb
        · rw [List.mem_singleton] at hb
          subst hb
          exact hintcur
      · exact noInteriorSeal_short (by simp)
      · intro b hb
        rcases List.mem_append.mp hb with hb | hb
        · exact hmb b hb
        · rw [List.mem_singleton] at hb
          subst hb
          obtain ⟨m, hm⟩ := listMin0_of_ne_nil hc.1
          constructor
          · show some (st.min_mtime.getD 0) = listMin0 st.tarfile_files
            rw [hmn, hm]
            rfl
          · rfl
    · rw [packStep_eq_noseal hc]
      apply ih
      · rw [sizeSum_append_singleton, hsz]
      · rw [List.getLast?_concat]
        rfl
      · rw [listMin0_append_singleton, hmn]
      · intro _
        simp
      · exact hne
      · rw [if_neg (by simp)]
        by_cases hA : st.tarfile_files = []
        · have hout : st.out = [] := by
            by_contra hone
            exact (hoc hone) hA
          rw [hout, hA]
          exact List.chain'_singleton _
        · rw [if_neg hA] at hch
          rcases List.chain'_append.mp hch with ⟨h1, _h2, h3⟩
          apply List.chain'_append.mpr
          refine ⟨h1, List.chain'_singleton _, ?_⟩
          intro x hx y hy
          simp only [List.head?_cons, Option.mem_def, Option.some_inj] at hy
          subst hy
          have hb := h3 x hx st.tarfile_files (by simp)
          exact (sealBoundary_head_congr
            (head?_append_of_ne_nil [f] hA).symm).mp hb
      · exact hint
      · intro p x y q heq
        rcases append_singleton_decomp heq with ⟨rfl, rfl, hA⟩ |
          ⟨q', rfl, hA⟩
        · intro ⟨hsize, hmt⟩
          apply hc
          refine ⟨by rw [hA]; simp, ?_, ?_⟩
          · rw [hsz, hA]
            exact hsize
          · rw [hpv, hA, List.getLast?_concat]
            intro heq2
            exact hmt (Option.some_injective _ heq2).symm
        · exact hintcur p x y q' hA
      · exact hmb

/-- Walking an mtime-sorted stream, the batches the packer yields are
strictly increasing: every file of an earlier batch has a strictly
smaller mtime than every file of a later batch (a seal only happens on a
strict mtime increase). -/
theorem packGo_pairwise (ms : Nat) (tpl : TarfileTemplate) :
    ∀ (l : List LocalBufferedFile) (st : PackSt),
      List.Sorted (fun a b : LocalBufferedFile => a.mtime ≤ b.mtime) l →
      List.Pairwise (fun A B : List LocalBufferedFile =>
        ∀ x ∈ A, ∀ y ∈ B, x.mtime < y.mtime) (st.out.map (·.files)) →
      (∀ A ∈ st.out.map (·.files), ∀ x ∈ A, ∀ y ∈ st.tarfile_files,
        x.mtime < y.mtime) →
      (∀ x ∈ st.tarfile_files, ∀ p : Int, st.prev_timestamp = some p →
        x.mtime ≤ p) →
      (∀ p : Int, st.prev_timestamp = some p → ∀ y ∈ l, p ≤ y.mtime) →
      (st.tarfile_files ≠ [] → ∃ p, st.prev_timestamp = some p) →
      (st.out ≠ [] → st.tarfile_files ≠ []) →
      List.Pairwise (fun A B : List LocalBufferedFile =>
        ∀ x ∈ A, ∀ y ∈ B, x.mtime < y.mtime)
        ((packGo ms tpl st l).map (·.files)) := by
  intro l
  induction l with
  | nil =>
    intro st _hsorted hpw h2 _h3 _h5 _h6 _hoc
    simp only [packGo]
    split_ifs with h
    · exact hpw
    · rw [List.map_append]
      apply List.pairwise_append.mpr
      refine ⟨hpw, by simp, ?_⟩
      intro A hA B hB
      simp only [List.map_cons, List.map_nil, List.mem_singleton] at hB
      subst hB
      exact h2 A hA
  | cons f rest ih =>
    intro st hsorted hpw h2 h3 h5 h6 hoc
    obtain ⟨hhead, hrest⟩ := List.sorted_cons.mp hsorted
    simp only [packGo]
    by_cases hc : st.tarfile_files ≠ [] ∧ st.tarfile_size + f.size > ms ∧
        st.prev_timestamp ≠ some f.mtime
    · rw [packStep_eq_seal hc]
      apply ih _ hrest
      · rw [List.map_append]
        apply List.pairwise_append.mpr
        refine ⟨hpw, by simp, ?_⟩
        intro A hA B hB
        simp only [List.map_cons, List.map_nil, List.mem_singleton] at hB
        subst hB
        exact h2 A hA
      · intro A hA x hx y hy
        rw [List.mem_singleton] at hy
        rw [hy]
        obtain ⟨p, hp⟩ := h6 hc.1
        have hpf : p ≤ f.mtime := h5 p hp f (by simp)
        have hpneq : p ≠ f.mtime := by
          intro heq
          apply hc.2.2
          rw [hp, heq]
        rw [List.map_append] at hA
        rcases List.mem_append.mp hA with hA | hA
        · obtain ⟨y0, hy0⟩ := List.exists_mem_of_ne_nil _ hc.1
          have hxy0 := h2 A hA x hx y0 hy0
          have hy0p := h3 y0 hy0 p hp
          omega
        · simp only [List.map_cons, List.map_nil, List.mem_singleton] at hA
          subst hA
          have hxp := h3 x hx p hp
          omega
      · intro x hx p hp
        rw [List.mem_singleton] at hx
        rw [hx]
        injection hp with hp
        exact le_of_eq hp
      · intro p hp y hy
        injection hp with hp
        subst hp
        exact hhead y hy
      · intro _
        exact ⟨f.mtime, rfl⟩
      · intro _
        simp
    · rw [packStep_eq_noseal hc]
      apply ih _ hrest
      · exact hpw
      · intro A hA x hx y hy
        rcases List.mem_append.mp hy with hy | hy
        · exact h2 A hA x hx y hy
        · rw [List.mem_singleton] at hy
          rw [hy]
          have houtne : st.out ≠ [] := by
            intro h0
            rw [h0] at hA
            simp at hA
          have htar := hoc houtne
          obtain ⟨y0, hy0⟩ := List.exists_mem_of_ne_nil _ htar
          obtain ⟨p, hp⟩ := h6 htar
          have ha := h2 A hA x hx y0 hy0
          have hb := h3 y0 hy0 p hp
          have hcc := h5 p hp f (by simp)
          omega
      · intro x hx p hp
        injection hp with hp
        subst hp
        rcases List.mem_append.mp hx with hx | hx
        · obtain ⟨p', hp'⟩ := h6 (List.ne_nil_of_mem hx)
          have ha := h3 x hx p' hp'
          have hb := h5 p' hp' f (by simp)
          omega
        · rw [List.mem_singleton] at hx
          rw [hx]
      · intro p hp y hy
        injection hp with hp
        subst hp
        exact hhead y hy
      · intro _
        exact ⟨f.mtime, rfl⟩
      · intro _
        simp

/-- C4: the tar packer walks the mtime-sorted file stream; every
collected file appears in exactly one yielded archive (the archives'
file lists concatenate exactly to the sorted stream); every yielded
archive is non-empty; consecutive archives are separated by a state
where the open batch was non-empty, its size plus the next file's size
exceeded max_uncompressed_size, and the next file's mtime differed from
the previous file's (sealBoundary); no interior position of an archive
satisfied the seal condition; and each archive is named from its
min_mtime accumulator, which is the minimum mtime of its files. -/
theorem c4_packer_seal_characterization (tpl : TarfileTemplate)
    (disk : List LocalBufferedFile) (early_time late_time : Int)
    (ms : Nat) :
    (((create_temporary_tarfiles tpl disk early_time late_time ms).map
        (·.files)).flatten =
      sortByMtime (all_files disk early_time late_time)) ∧
    (∀ b ∈ create_temporary_tarfiles tpl disk early_time late_time ms,
      b.files ≠ []) ∧
    List.Chain' (sealBoundary ms)
      ((create_temporary_tarfiles tpl disk early_time late_time ms).map
        (·.files)) ∧
    (∀ b ∈ create_temporary_tarfiles tpl disk early_time late_time ms,
      noInteriorSeal ms b.files) ∧
    (∀ b ∈ create_temporary_tarfiles tpl disk early_time late_time ms,
      some b.minMtime = listMin0 b.files ∧
      b.name = tpl.create_filename b.minMtime ∧
      (∀ x ∈ b.files, b.minMtime ≤ x.mtime) ∧
      b.minMtime ∈ b.files.map (·.mtime)) := by
  have hflat := packGo_flatten ms tpl
    (sortByMtime (all_files disk early_time late_time)) packInit
  have hshape := packGo_shape ms tpl
    (sortByMtime (all_files disk early_time late_time)) packInit
    rfl rfl rfl (fun h => absurd rfl h) (by simp [packInit])
    (by exact List.chain'_nil) (by simp [packInit])
    (noInteriorSeal_short (by simp [packInit])) (by simp [packInit])
  refine ⟨?_, hshape.1, hshape.2.1, hshape.2.2.1, ?_⟩
  · simpa [packInit] using hflat
  · intro b hb
    obtain ⟨hmin, hname⟩ := hshape.2.2.2 b hb
    obtain ⟨hlb, hmem⟩ := listMin0_spec b.files b.minMtime hmin.symm
    exact ⟨hmin, hname, hlb, hmem⟩

/-- Witness for C4: two files of 600 bytes at mtimes 1000 and 1001 with
max_uncompressed_size 1000 are packed into two singleton archives whose
seal boundary holds, and the first archive is non-empty. -/
theorem c4_packer_seal_characterization_witness :
    ((create_temporary_tarfiles exampleTemplate
        [⟨"a", 1000, 600⟩, ⟨"b", 1001, 600⟩] 0 2000 1000).map
      (·.files)).flatten = [⟨"a", 1000, 600⟩, ⟨"b", 1001, 600⟩] ∧
    sealBoundary 1000 [⟨"a", 1000, 600⟩] [⟨"b", 1001, 600⟩] ∧
    (⟨"/tmp/19700101T001640Z-mlab1-abc01-ndt-0000.tgz",
        [⟨"a", 1000, 600⟩], 1000, 1000⟩ : TarBatch).files ≠ [] := by
  refine ⟨(c4_packer_seal_characterization exampleTemplate
    [⟨"a", 1000, 600⟩, ⟨"b", 1001, 600⟩] 0 2000 1000).1, ?_, ?_⟩
  · have hch : List.Chain' (sealBoundary 1000)
        [[⟨"a", 1000, 600⟩], [⟨"b", 1001, 600⟩]] :=
      (c4_packer_seal_characterization exampleTemplate
        [⟨"a", 1000, 600⟩, ⟨"b", 1001, 600⟩] 0 2000 1000).2.2.1
    exact (List.chain'_cons.mp hch).1
  · exact (c4_packer_seal_characterization exampleTemplate
      [⟨"a", 1000, 600⟩, ⟨"b", 1001, 600⟩] 0 2000 1000).2.1 _ (by decide)

/-- C2: any two files of the collected window that share the same
whole-second mtime are placed in the same yielded archive, whatever the
size limit (the seal condition requires an mtime change, so a same-mtime
run is never split even when it overshoots max_uncompressed_size). -/
theorem c2_same_mtime_files_share_archive (tpl : TarfileTemplate)
    (disk : List LocalBufferedFile) (early_time late_time : Int)
    (ms : Nat) (u v : LocalBufferedFile)
    (hu : u ∈ all_files disk early_time late_time)
    (hv : v ∈ all_files disk early_time late_time)
    (heq : u.mtime = v.mtime) :
    ∃ b ∈ create_temporary_tarfiles tpl disk early_time late_time ms,
      u ∈ b.files ∧ v ∈ b.files := by
  have hperm := List.perm_insertionSort
    (fun a b : LocalBufferedFile => a.mtime ≤ b.mtime)
    (all_files disk early_time late_time)
  have hu' : u ∈ sortByMtime (all_files disk early_time late_time) :=
    hperm.mem_iff.mpr hu
  have hv' : v ∈ sortByMtime (all_files disk early_time late_time) :=
    hperm.mem_iff.mpr hv
  have hsorted : List.Sorted (fun a b : LocalBufferedFile =>
      a.mtime ≤ b.mtime) (sortByMtime (all_files disk early_time
        late_time)) :=
    List.sorted_insertionSort _ _
  have hpw := packGo_pairwise ms tpl
    (sortByMtime (all_files disk early_time late_time)) packInit
    hsorted (by simp [packInit]) (by simp [packInit])
    (by simp [packInit]) (fun p hp => Option.noConfusion hp)
    (fun h => absurd rfl h) (fun h => absurd rfl h)
  have hflat : ((packGo ms tpl packInit (sortByMtime (all_files disk
      early_time late_time))).map (·.files)).flatten =
      sortByMtime (all_files disk early_time late_time) := by
    simpa [packInit] using packGo_flatten ms tpl
      (sortByMtime (all_files disk early_time late_time)) packInit
  have hub : ∃ bu ∈ packGo ms tpl packInit (sortByMtime (all_files disk
      early_time late_time)), u ∈ bu.files := by
    have hmem : u ∈ ((packGo ms tpl packInit (sortByMtime (all_files disk
        early_time late_time))).map (·.files)).flatten := by
      rw [hflat]
      exact hu'
    obtain ⟨fl, hfl, hufl⟩ := List.mem_flatten.mp hmem
    obtain ⟨bu, hbu, rfl⟩ := List.mem_map.mp hfl
    exact ⟨bu, hbu, hufl⟩
  have hvb : ∃ bv ∈ packGo ms tpl packInit (sortByMtime (all_files disk
      early_time late_time)), v ∈ bv.files := by
    have hmem : v ∈ ((packGo ms tpl packInit (sortByMtime (all_files disk
        early_time late_time))).map (·.files)).flatten := by
      rw [hflat]
      exact hv'
    obtain ⟨fl, hfl, hvfl⟩ := List.mem_flatten.mp hmem
    obtain ⟨bv, hbv, rfl⟩ := List.mem_map.mp hfl
    exact ⟨bv, hbv, hvfl⟩
  obtain ⟨bu, hbu, huu⟩ := hub
  obtain ⟨bv, hbv, hvv⟩ := hvb
  obtain ⟨i, hi, hbi⟩ := List.mem_iff_getElem.mp hbu
  obtain ⟨j, hj, hbj⟩ := List.mem_iff_getElem.mp hbv
  rcases lt_trichotomy i j with hij | hij | hij
  · exfalso
    have hR := List.pairwise_iff_getElem.mp hpw i j
      (by simpa using hi) (by simpa using hj) hij
    simp only [List.getElem_map] at hR
    rw [hbi, hbj] at hR
    have := hR u huu v hvv
    omega
  · subst hij
    have hbuv : bu = bv := by
      rw [← hbi, ← hbj]
    exact ⟨bu, hbu, huu, hbuv ▸ hvv⟩
  · exfalso
    have hR := List.pairwise_iff_getElem.mp hpw j i
      (by simpa using hj) (by simpa using hi) hij
    simp only [List.getElem_map] at hR
    rw [hbi, hbj] at hR
    have := hR v hvv u huu
    omega

/-- Witness for C2: two 600-byte files with the same mtime 1000 and
max_uncompressed_size 1000 (which their total exceeds) end up in the
same archive. -/
theorem c2_same_mtime_files_share_archive_witness :
    ∃ b ∈ create_temporary_tarfiles exampleTemplate
        [⟨"a", 1000, 600⟩, ⟨"b", 1000, 600⟩] 0 2000 1000,
      (⟨"a", 1000, 600⟩ : LocalBufferedFile) ∈ b.files ∧
      (⟨"b", 1000, 600⟩ : LocalBufferedFile) ∈ b.files :=
  c2_same_mtime_files_share_archive exampleTemplate
    [⟨"a", 1000, 600⟩, ⟨"b", 1000, 600⟩] 0 2000 1000
    ⟨"a", 1000, 600⟩ ⟨"b", 1000, 600⟩ (by decide) (by decide) rfl
